import Mathlib

/-!
Shallow embedding of the scratch-off-card repository's core logic:
the deck generator (`utils.ts`), the load-time migration shim
(`useCards.ts`), and the transactional card operations
(`services/gameService.ts`, current version with the anti-cheat rule).

Conventions of the embedding:
* TS `number` fields holding non-negative integers become `Nat`;
  the scratch `progress` percentage argument can be any number, so it
  becomes `Int` and stored progress becomes `Option Int`.
* A field that may be `undefined` at runtime becomes an `Option`;
  an object literal omitting the field yields `none`.
* `Math.floor(Math.random() * b)` is modelled by drawing the next value
  from an arbitrary oracle sequence and reducing it `% b`; every theorem
  quantifies over the oracle, so properties hold for all random choices.
* A Firestore transaction body that can `throw` becomes a function into
  `Except String`; `.error` means the transaction aborted with no write.
-/

namespace Scratch

/-- Type `CardStatus` from `types.ts`: `'available' | 'scratching' | 'completed'`. -/
inductive CardStatus where
  | available
  | scratching
  | completed
deriving DecidableEq, Repr, Inhabited

/-- Type `GamePair` from `types.ts`: one comparison row of a card. -/
structure GamePair where
  my : Nat
  house : Nat
  prize : Nat
  isWin : Bool
deriving DecidableEq, Repr, Inhabited

/-- Type `GameResult` from `types.ts` (the card record).  Fields that can be
`undefined` at runtime are `Option`; in particular `status` and `progress`
are `Option` because `createCardResult` omits them from its object literal. -/
structure GameResult where
  id : Nat
  isWin : Bool
  status : Option CardStatus
  games : List GamePair
  bonusPrize : Nat
  isBonusWin : Bool
  totalPrizeAmount : Nat
  isPlayed : Bool
  progress : Option Int
  isRevealed : Option Bool
  lockedBy : Option String
  lockedAt : Option Nat
deriving DecidableEq, Repr, Inhabited

/-- Type `PrizeTier` from `types.ts`. -/
structure PrizeTier where
  count : Nat
  amount : Nat
deriving DecidableEq, Repr, Inhabited

/-- Type `GameConfig` from `types.ts`, restricted to the fields the deck
generator and game service read (`tiers`, `totalCards`); the remaining
fields are presentation-only strings/flags. -/
structure GameConfig where
  tiers : List PrizeTier
  totalCards : Nat
deriving DecidableEq, Repr, Inhabited

/-- The `deck` field of the canonical game document (`GameState` in
`gameService.ts`); `config`/`updatedAt` are never consulted by the
card operations, so the state is represented by its deck. -/
structure GameState where
  deck : List GameResult
deriving DecidableEq, Repr, Inhabited

/-! ### Randomness oracle

`Math.random()` draws are modelled by an infinite sequence of arbitrary
naturals together with a cursor; each draw advances the cursor. -/

structure Rng where
  seq : Nat → Nat
  pos : Nat

/-- Draw the next raw value from the oracle. -/
def Rng.next (r : Rng) : Nat × Rng :=
  (r.seq r.pos, ⟨r.seq, r.pos + 1⟩)

/-- Models `Math.floor(Math.random() * b)`: a draw strictly below `b` (for `b > 0`). -/
def Rng.below (r : Rng) (b : Nat) : Nat × Rng :=
  let (v, r') := r.next
  (v % b, r')

/-- Models `Math.random() > 0.5`: a fair coin. -/
def Rng.coin (r : Rng) : Bool × Rng :=
  let (v, r') := r.next
  (v % 2 = 1, r')

/-! ### Deck generator (`utils.ts`) -/

/-- Function `getRandomFakePrize` from `utils.ts`: a decoy prize for a losing row,
drawn from a fixed menu with the real target amount filtered out. -/
def getRandomFakePrize (targetAmount : Nat) (r : Rng) : Nat × Rng :=
  let amounts : List Nat := [10, 20, 50, 100, 200, 500, 1000]
  let valid := amounts.filter (fun a => a ≠ targetAmount)
  let jr := r.below valid.length
  (valid.getD jr.1 0, jr.2)

/-- One comparison row of `createCardResult` (the body of its
`for (let i = 0; i < 2; i++)` loop): decide whether spot `i` carries a
real prize, pick the displayed prize, then draw the two numbers from 1–9
with the strict inequality in the row's win/loss direction. -/
def drawRow (winSpots : List (Nat × Nat)) (prizeAmount : Nat) (i : Nat)
    (r : Rng) : GamePair × Rng :=
  match winSpots.find? (fun s => s.1 = i) with
  | some spotData =>
    -- WIN: my > house strictly; house from 1-8, my from house+1 to 9
    let hr := r.below 8
    let house := hr.1 + 1
    let mr := hr.2.below (9 - house)
    let my := mr.1 + house + 1
    ({ my := my, house := house, prize := spotData.2, isWin := true }, mr.2)
  | none =>
    -- LOSS: my < house strictly; decoy prize drawn first (ternary operand)
    let dr := getRandomFakePrize prizeAmount r
    let mr := dr.2.below 8
    let my := mr.1 + 1
    let hr := mr.2.below (9 - my)
    let house := hr.1 + my + 1
    ({ my := my, house := house, prize := dr.1, isWin := false }, hr.2)

/-- The `winSpots` computation of `createCardResult`: which of the three
slots (row 0, row 1, bonus 2) carry real prize money, and how much.
The JS `&&` short-circuits, so the coin is only drawn when
`prizeAmount >= 20`; the `while (spot2 === spot1)` rejection-sampling
loop is modelled as one draw from the two remaining spots. -/
def pickWinSpots (isWin : Bool) (prizeAmount : Nat) (r : Rng) :
    List (Nat × Nat) × Rng :=
  if isWin then
    let sr := if 20 ≤ prizeAmount then r.coin else (false, r)
    if sr.1 then
      let s1 := sr.2.below 3
      let s2 := s1.2.below 2
      let spot2 := (([0, 1, 2] : List Nat).filter (fun x => x ≠ s1.1)).getD s2.1 0
      let part1 := (prizeAmount + 1) / 2  -- Math.ceil(prizeAmount / 2)
      let part2 := prizeAmount - part1
      ([(s1.1, part1), (spot2, part2)], s2.2)
    else
      let sp := sr.2.below 3
      ([(sp.1, prizeAmount)], sp.2)
  else ([], r)

/-- Function `createCardResult` from `utils.ts`.  Note the returned object literal
has no `status`, `progress`, `isRevealed`, `lockedBy` or `lockedAt`
fields: they are all `none` (undefined at runtime). -/
def createCardResult (id : Nat) (isWin : Bool) (prizeAmount : Nat)
    (r : Rng) : GameResult × Rng :=
  let wsr := pickWinSpots isWin prizeAmount r
  let winSpots := wsr.1
  let g0 := drawRow winSpots prizeAmount 0 wsr.2
  let g1 := drawRow winSpots prizeAmount 1 g0.2
  let games := [g0.1, g1.1]
  let bonus :=
    match winSpots.find? (fun s => s.1 = 2) with
    | some sd => (true, sd.2)
    | none => (false, 0)
  let calculatedTotal :=
    (games.map (fun g => if g.isWin then g.prize else 0)).sum +
      (if bonus.1 then bonus.2 else 0)
  ({ id := id, isWin := isWin, status := none, games := games,
     bonusPrize := bonus.2, isBonusWin := bonus.1,
     totalPrizeAmount := calculatedTotal, isPlayed := false,
     progress := none, isRevealed := none, lockedBy := none,
     lockedAt := none }, g1.2)

/-- Push `n` cards created by `createCardResult` onto the end of the deck,
each with the provisional id `deck.length + 1` (the loops in steps 1 and 2
of `generateDeck`). -/
def pushCards (isWin : Bool) (amount : Nat) :
    Nat → List GameResult × Rng → List GameResult × Rng
  | 0, s => s
  | n + 1, (deck, r) =>
    let cr := createCardResult (deck.length + 1) isWin amount r
    pushCards isWin amount n (deck ++ [cr.1], cr.2)

/-- The JS swap `[deck[i], deck[j]] = [deck[j], deck[i]]`; both reads
happen before either write. -/
def listSwap (l : List GameResult) (i j : Nat) : List GameResult :=
  match l[i]?, l[j]? with
  | some xi, some xj => (l.set i xj).set j xi
  | _, _ => l

/-- The Fisher-Yates loop of `generateDeck`, recursing on the loop
variable: at `i + 1` it swaps index `i + 1` with a draw below `i + 2`. -/
def fyGo : Nat → List GameResult → Rng → List GameResult × Rng
  | 0, l, r => (l, r)
  | i + 1, l, r =>
    let jr := r.below (i + 2)
    fyGo i (listSwap l (i + 1) jr.1) jr.2

/-- Step 3 of `generateDeck`: Fisher-Yates shuffle from `length - 1`
down to `1`. -/
def shuffle (l : List GameResult) (r : Rng) : List GameResult × Rng :=
  fyGo (l.length - 1) l r

/-- Step 4 of `generateDeck`:
`deck.map((card, index) => ({ ...card, id: index + 1 }))`. -/
def reassignIds : Nat → List GameResult → List GameResult
  | _, [] => []
  | k, c :: rest => { c with id := k + 1 } :: reassignIds (k + 1) rest

/-- Function `generateDeck` from `utils.ts`: winners per tier, losing-cards fill
(`totalCards - deck.length`; a JS negative count runs the loop zero times,
matching truncated `Nat` subtraction), Fisher-Yates shuffle, then ids
reassigned to grid positions. -/
def generateDeck (config : GameConfig) (r : Rng) : List GameResult × Rng :=
  let base :=
    config.tiers.foldl (fun s tier => pushCards true tier.amount tier.count s)
      ([], r)
  let remaining := config.totalCards - base.1.length
  let base2 := pushCards false 0 remaining base
  let shuffled := shuffle base2.1 base2.2
  (reassignIds 0 shuffled.1, shuffled.2)

/-- Function `migrateCard` from `useCards.ts`: backward-compat shim deriving
`status`/`progress` from the legacy `isPlayed` flag when `status` is
absent (JS-falsy). -/
def migrateCard (card : GameResult) : GameResult :=
  if card.status = none then
    { card with
      status := some (if card.isPlayed then .completed else .available)
      progress := some (if card.isPlayed then 100 else 0) }
  else card

/-! ### Card operations (`services/gameService.ts`) -/

/-- JS `x >= n` on a possibly-undefined number: `undefined >= n` is
`false` (NaN comparison). -/
def jsGE (x : Option Int) (n : Int) : Bool :=
  match x with
  | none => false
  | some v => n ≤ v

/-- The predicate of the anti-cheat scan in `lockCard`:
`c.status === 'scratching' && c.lockedBy === userId`. -/
def heldBy (userId : String) (c : GameResult) : Bool :=
  c.status = some .scratching ∧ c.lockedBy = some userId

/-- The card-lookup predicate `c.id === cardId`. -/
def hasId (cardId : Nat) (c : GameResult) : Bool :=
  c.id = cardId

/-- The terminal field assignment shared by `lockCard`'s auto-complete,
`completeCard` and `forceCompleteStaleCards`. -/
def completedOf (c : GameResult) : GameResult :=
  { c with
    status := some .completed
    isPlayed := true
    isRevealed := some true
    progress := some 100
    lockedBy := none
    lockedAt := none }

/-- The fields written by a successful lock in `lockCard`. -/
def lockedOf (c : GameResult) (userId : String) (now : Nat) : GameResult :=
  { c with
    status := some .scratching
    lockedBy := some userId
    lockedAt := some now
    progress := some 0 }

/-- The part of `lockCard`'s transaction body after the anti-cheat check:
find the target card, require `status === 'available'`, lock it. -/
def lockAvail (newDeck : List GameResult) (cardId : Nat) (userId : String)
    (now : Nat) : Except String (List GameResult) :=
  match newDeck.findIdx? (hasId cardId) with
  | none => .error "Card not found"
  | some cardIndex =>
    let card := newDeck.getD cardIndex default
    if card.status ≠ some .available then .error "Card is not available"
    else .ok (newDeck.set cardIndex (lockedOf card userId now))

/-- The transaction body of `lockCard`: anti-cheat scan for a card the
caller already holds (auto-completed when `progress >= 90`, otherwise the
claim is rejected), then the availability check and the lock. -/
def lockCardTx (deck : List GameResult) (cardId : Nat) (userId : String)
    (now : Nat) : Except String (List GameResult) :=
  match deck.findIdx? (heldBy userId) with
  | some existingIdx =>
    let existing := deck.getD existingIdx default
    if jsGE existing.progress 90 then
      lockAvail (deck.set existingIdx (completedOf existing)) cardId userId now
    else .error "User already has an active card"
  | none => lockAvail deck cardId userId now

/-- Function `lockCard` from `gameService.ts`: the transaction wrapped in
`try/catch` - a thrown precondition (or a missing game document) aborts
the transaction, leaves the document untouched and returns `false`. -/
def lockCard (st : Option GameState) (cardId : Nat) (userId : String)
    (now : Nat) : Bool × Option GameState :=
  match st with
  | none => (false, none)
  | some s =>
    match lockCardTx s.deck cardId userId now with
    | .ok d => (true, some ⟨d⟩)
    | .error _ => (false, some s)

/-- JS `Math.min(100, Math.max(0, progress))`. -/
def clampProgress (p : Int) : Int :=
  min 100 (max 0 p)

/-- The transaction body of `updateCardProgress`: ownership check
(`lockedBy !== userId`), then state check (`status !== 'scratching'`),
then clamp and store the percentage.  `.error` is a thrown rejection:
the transaction aborts and the document is unchanged. -/
def updateCardProgress (deck : List GameResult) (cardId : Nat)
    (userId : String) (progress : Int) : Except String (List GameResult) :=
  match deck.findIdx? (hasId cardId) with
  | none => .error "Card not found"
  | some cardIndex =>
    let card := deck.getD cardIndex default
    if card.lockedBy ≠ some userId then .error "Not your card"
    else if card.status ≠ some .scratching then
      .error "Card is not being scratched"
    else
      .ok (deck.set cardIndex { card with progress := some (clampProgress progress) })

/-- The transaction body of `completeCard`: ownership check only
(no status re-check), then the terminal field assignment. -/
def completeCard (deck : List GameResult) (cardId : Nat) (userId : String) :
    Except String (List GameResult) :=
  match deck.findIdx? (hasId cardId) with
  | none => .error "Card not found"
  | some cardIndex =>
    let card := deck.getD cardIndex default
    if card.lockedBy ≠ some userId then .error "Not your card"
    else .ok (deck.set cardIndex (completedOf card))

/-- The staleness re-validation of `forceCompleteStaleCards`:
`!card.lockedAt || (now - card.lockedAt) > 45000`.  JS falsiness makes a
missing *or zero* `lockedAt` stale. -/
def isStaleClient (now : Nat) (lockedAt : Option Nat) : Bool :=
  match lockedAt with
  | none => true
  | some t => t = 0 ∨ now - t > 45000

/-- The transaction body of `forceCompleteStaleCards` from
`gameService.ts`: for each candidate id, re-validate that the card is
still `'scratching'` and stale, and if so force-complete it; the sweep
takes no identity.  It never throws, and the `changed` flag only gates
an identical write. -/
def forceCompleteStaleCards (staleCardIds : List Nat)
    (deck : List GameResult) (now : Nat) : List GameResult :=
  staleCardIds.foldl
    (fun deck id =>
      match deck.findIdx? (hasId id) with
      | none => deck
      | some idx =>
        let card := deck.getD idx default
        if card.status = some .scratching then
          if isStaleClient now card.lockedAt then
            deck.set idx (completedOf card)
          else deck
        else deck)
    deck

/-! ### Statement-level definitions -/

/-- The row invariant of the spec: numbers are drawn from 1-9 and the
strict comparison always matches the row's win flag. -/
def rowOk (g : GamePair) : Prop :=
  1 ≤ g.my ∧ g.my ≤ 9 ∧ 1 ≤ g.house ∧ g.house ≤ 9 ∧
    (g.isWin = true → g.house < g.my) ∧
    (g.isWin = false → g.my < g.house) ∧ g.my ≠ g.house

instance (g : GamePair) : Decidable (rowOk g) := by
  unfold rowOk; infer_instance

/-- The sum of the real prizes shown on winning rows. -/
def winningRowsSum (games : List GamePair) : Nat :=
  (games.map (fun g => if g.isWin then g.prize else 0)).sum

/-- The winner-generation fold of `generateDeck` (step 1). -/
def genWinners (tiers : List PrizeTier) (s : List GameResult × Rng) :
    List GameResult × Rng :=
  tiers.foldl (fun s tier => pushCards true tier.amount tier.count s) s

/-- The prize multiset a tier list promises: `count` cards of `amount`
per tier. -/
def tierPrizes (tiers : List PrizeTier) : List Nat :=
  tiers.flatMap (fun t => List.replicate t.count t.amount)

/-- The one-active-card invariant the transaction maintains: the identity
holds at most one `scratching` card. -/
def atMostOneHeld (u : String) (deck : List GameResult) : Prop :=
  ∀ i j (hi : i < deck.length) (hj : j < deck.length),
    heldBy u deck[i] = true → heldBy u deck[j] = true → i = j

/-- The deck a successful claim writes back: the held card (if any)
force-completed, then the target at position `t` locked. -/
def lockCardExpected (deck : List GameResult) (t : Nat) (u : String)
    (n : Nat) : List GameResult :=
  match deck.findIdx? (heldBy u) with
  | none => deck.set t (lockedOf (deck.getD t default) u n)
  | some h =>
    (deck.set h (completedOf (deck.getD h default))).set t
      (lockedOf (deck.getD t default) u n)

/-! ### Concrete instances used by witnesses and counterexamples -/

/-- A fixed oracle (all draws zero). -/
def rng0 : Rng := ⟨fun _ => 0, 0⟩

/-- A minimal card record with the service-relevant fields exposed. -/
def sampleCard (id : Nat) (st : Option CardStatus) (lb : Option String)
    (la : Option Nat) (pr : Option Int) : GameResult :=
  { id := id, isWin := false, status := st, games := [],
    bonusPrize := 0, isBonusWin := false, totalPrizeAmount := 0,
    isPlayed := false, progress := pr, isRevealed := none,
    lockedBy := lb, lockedAt := la }

/-- A four-card config with one 100-prize tier. -/
def cfg4 : GameConfig := ⟨[⟨1, 100⟩], 4⟩

/-- A single available card. -/
def deckW1 : List GameResult :=
  [sampleCard 1 (some .available) none none (some 0)]

/-- A single card being scratched by `"A"`. -/
def deckB : List GameResult :=
  [sampleCard 1 (some .scratching) (some "A") (some 5) (some 40)]

/-- A single card being scratched by `"B"` with an old lock. -/
def deckS : List GameResult :=
  [sampleCard 1 (some .scratching) (some "B") (some 100) (some 50)]

/-- Deck where `"A"` holds two scratching cards (first at 95%, second at 10%);
card 3 is available.  States like this separate the code's first-held
scan from the claim's every-held-card reading. -/
def deckC1 : List GameResult :=
  [sampleCard 1 (some .scratching) (some "A") (some 7) (some 95),
   sampleCard 2 (some .scratching) (some "A") (some 8) (some 10),
   sampleCard 3 (some .available) none none (some 0)]

/-- Like `deckC1` with the second held card at 50%. -/
def deckC2 : List GameResult :=
  [sampleCard 1 (some .scratching) (some "A") (some 7) (some 95),
   sampleCard 2 (some .scratching) (some "A") (some 8) (some 50),
   sampleCard 3 (some .available) none none (some 0)]

/-- A scratching card whose `lockedAt` is the number `0` (JS-falsy but
present). -/
def deckC3 : List GameResult :=
  [sampleCard 1 (some .scratching) (some "B") (some 0) (some 50)]

/-! ### List helper lemmas -/

theorem Rng.below_lt (r : Rng) (b : Nat) (hb : 0 < b) : (r.below b).1 < b :=
  Nat.mod_lt _ hb


theorem getD_eq_getElem' {α : Type} (l : List α) (i : Nat) (d : α)
    (h : i < l.length) : l.getD i d = l[i] := by
  simp [List.getD_eq_getElem?_getD, List.getElem?_eq_getElem h]

/-- Replacing an entry by one on which the predicate agrees does not move
the first hit of `findIdx?`. -/
theorem findIdx?_set_congr {α : Type} (p : α → Bool) (l : List α) (i : Nat)
    (x : α) (h : ∀ hi : i < l.length, p x = p l[i]) :
    (l.set i x).findIdx? p = l.findIdx? p := by
  induction l generalizing i with
  | nil => simp
  | cons a t ih =>
    cases i with
    | zero =>
      have hx : p x = p a := h (by simp)
      simp [List.set_cons_zero, List.findIdx?_cons, hx]
    | succ n =>
      have ht : ∀ hn : n < t.length, p x = p t[n] := by
        intro hn
        simpa using h (by simpa using Nat.succ_lt_succ hn)
      simp only [List.set_cons_succ, List.findIdx?_cons]
      by_cases ha : p a
      · simp [ha]
      · simp only [ha, if_neg, Bool.false_eq_true, reduceIte]
        rw [List.findIdx?_succ, List.findIdx?_succ, ih n ht]

/-- Moving an element of the list to the front in exchange for a new
entry at its position is a permutation. -/
theorem cons_set_perm {α : Type} :
    ∀ (t : List α) (m : Nat) (b : α) (hm : m < t.length),
      (t[m] :: t.set m b).Perm (b :: t)
  | c :: t', 0, b, _ => by
    simpa using List.Perm.swap b c t'
  | c :: t', m + 1, b, h => by
    have hm : m < t'.length := by simpa using Nat.lt_of_succ_lt_succ h
    have ih := cons_set_perm t' m b hm
    have step1 : ((c :: t')[m + 1] :: (c :: t').set (m + 1) b) =
        t'[m] :: c :: t'.set m b := by simp
    rw [step1]
    exact ((List.Perm.swap c t'[m] (t'.set m b)).trans (ih.cons c)).trans
      (List.Perm.swap b c t')

/-- A two-index exchange (both reads before both writes) is a
permutation. -/
theorem set_set_perm {α : Type} :
    ∀ (l : List α) (i j : Nat) (hi : i < l.length) (hj : j < l.length),
      ((l.set i l[j]).set j l[i]).Perm l
  | [], i, j, hi, _ => absurd hi (by simp)
  | a :: t, 0, 0, _, _ => by simp
  | a :: t, 0, m + 1, _, hj => by
    have hm : m < t.length := by simpa using Nat.lt_of_succ_lt_succ hj
    simpa using cons_set_perm t m a hm
  | a :: t, k + 1, 0, hk, _ => by
    have hk' : k < t.length := by simpa using Nat.lt_of_succ_lt_succ hk
    simpa using cons_set_perm t k a hk'
  | a :: t, k + 1, m + 1, hk, hm => by
    have hk' : k < t.length := by simpa using Nat.lt_of_succ_lt_succ hk
    have hm' : m < t.length := by simpa using Nat.lt_of_succ_lt_succ hm
    simpa using (set_set_perm t k m hk' hm').cons a

theorem listSwap_perm (l : List GameResult) (i j : Nat) :
    (listSwap l i j).Perm l := by
  unfold listSwap
  cases hi : l[i]? with
  | none => exact List.Perm.refl l
  | some xi =>
    cases hj : l[j]? with
    | none => exact List.Perm.refl l
    | some xj =>
      have hi' : i < l.length := by
        by_contra h
        simp [List.getElem?_eq_none (Nat.le_of_not_lt h)] at hi
      have hj' : j < l.length := by
        by_contra h
        simp [List.getElem?_eq_none (Nat.le_of_not_lt h)] at hj
      have exi : xi = l[i] := by
        have := hi
        rw [List.getElem?_eq_getElem hi'] at this
        exact (Option.some.injEq _ _ ▸ this.symm)
      have exj : xj = l[j] := by
        have := hj
        rw [List.getElem?_eq_getElem hj'] at this
        exact (Option.some.injEq _ _ ▸ this.symm)
      subst exi exj
      exact set_set_perm l i j hi' hj'

theorem fyGo_perm : ∀ (n : Nat) (l : List GameResult) (r : Rng),
    (fyGo n l r).1.Perm l
  | 0, l, _ => List.Perm.refl l
  | n + 1, l, r => by
    have ih := fyGo_perm n (listSwap l (n + 1) (r.below (n + 2)).1)
      (r.below (n + 2)).2
    exact ih.trans (listSwap_perm l (n + 1) (r.below (n + 2)).1)

theorem shuffle_perm (l : List GameResult) (r : Rng) :
    (shuffle l r).1.Perm l :=
  fyGo_perm (l.length - 1) l r

theorem reassignIds_length : ∀ (k : Nat) (l : List GameResult),
    (reassignIds k l).length = l.length
  | _, [] => rfl
  | k, _ :: rest => by simp [reassignIds, reassignIds_length (k + 1) rest]

theorem reassignIds_getElem :
    ∀ (k : Nat) (l : List GameResult) (i : Nat) (h : i < l.length),
      (reassignIds k l).getD i default =
        { l[i] with id := k + i + 1 }
  | k, c :: rest, 0, _ => rfl
  | k, c :: rest, i + 1, h => by
    have h' : i < rest.length := by simpa using Nat.lt_of_succ_lt_succ h
    have := reassignIds_getElem (k + 1) rest i h'
    simpa [reassignIds, Nat.add_assoc, Nat.add_comm 1 i,
      Nat.add_left_comm 1 i] using this

/-! ### Deck-generator lemmas -/

theorem drawRow_rowOk (ws : List (Nat × Nat)) (A i : Nat) (r : Rng) :
    rowOk (drawRow ws A i r).1 := by
  unfold drawRow
  cases h : ws.find? (fun s => s.1 = i) with
  | some sd =>
    have h8 : (r.below 8).1 < 8 := Rng.below_lt r 8 (by norm_num)
    have h9 : ((r.below 8).2.below (9 - ((r.below 8).1 + 1))).1 <
        9 - ((r.below 8).1 + 1) :=
      Rng.below_lt _ _ (by omega)
    simp only [rowOk]
    refine ⟨by omega, by omega, by omega, by omega, ?_, ?_, by omega⟩ <;>
      simp <;> omega
  | none =>
    have h8 : ((getRandomFakePrize A r).2.below 8).1 < 8 :=
      Rng.below_lt _ 8 (by norm_num)
    have h9 : (((getRandomFakePrize A r).2.below 8).2.below
        (9 - (((getRandomFakePrize A r).2.below 8).1 + 1))).1 <
        9 - (((getRandomFakePrize A r).2.below 8).1 + 1) :=
      Rng.below_lt _ _ (by omega)
    simp only [rowOk]
    refine ⟨by omega, by omega, by omega, by omega, ?_, ?_, by omega⟩ <;>
      simp <;> omega

theorem drawRow_isWin (ws : List (Nat × Nat)) (A i : Nat) (r : Rng) :
    (drawRow ws A i r).1.isWin = (ws.find? (fun s => s.1 = i)).isSome := by
  unfold drawRow
  cases h : ws.find? (fun s => s.1 = i) <;> simp

theorem drawRow_prize_of_some (ws : List (Nat × Nat)) (A i : Nat) (r : Rng)
    (sd : Nat × Nat) (h : ws.find? (fun s => s.1 = i) = some sd) :
    (drawRow ws A i r).1.prize = sd.2 := by
  unfold drawRow
  rw [h]

/-- Shape analysis of `winSpots`: a losing card has none; a winning card
has either the whole amount in one of the three slots, or (only when the
amount is at least 20) a split across two distinct slots whose parts sum
to the amount. -/
theorem pickWinSpots_cases (w : Bool) (A : Nat) (r : Rng) :
    (w = false ∧ (pickWinSpots w A r).1 = []) ∨
    (w = true ∧ ∃ s, s < 3 ∧ (pickWinSpots w A r).1 = [(s, A)]) ∨
    (w = true ∧ 20 ≤ A ∧ ∃ s1 s2 p1 p2, s1 < 3 ∧ s2 < 3 ∧ s1 ≠ s2 ∧
      p1 + p2 = A ∧ (pickWinSpots w A r).1 = [(s1, p1), (s2, p2)]) := by
  cases w with
  | false => exact Or.inl ⟨rfl, by simp [pickWinSpots]⟩
  | true =>
    by_cases hA : 20 ≤ A
    · cases hc : (r.coin).1 with
      | false =>
        refine Or.inr (Or.inl ⟨rfl, ((r.coin).2.below 3).1, ?_, ?_⟩)
        · exact Rng.below_lt _ 3 (by norm_num)
        · simp [pickWinSpots, hA, hc]
      | true =>
        have h1 : ((r.coin).2.below 3).1 < 3 := Rng.below_lt _ 3 (by norm_num)
        have h2 : (((r.coin).2.below 3).2.below 2).1 < 2 :=
          Rng.below_lt _ 2 (by norm_num)
        set a := ((r.coin).2.below 3).1 with ha
        set b := (((r.coin).2.below 3).2.below 2).1 with hb
        have key : ∀ x y : Nat, x < 3 → y < 2 →
            (([0, 1, 2] : List Nat).filter (fun z => z ≠ x)).getD y 0 < 3 ∧
            (([0, 1, 2] : List Nat).filter (fun z => z ≠ x)).getD y 0 ≠ x := by
          intro x y hx hy
          interval_cases x <;> interval_cases y <;> decide
        obtain ⟨hs2lt, hs2ne⟩ := key a b h1 h2
        refine Or.inr (Or.inr ⟨rfl, hA, a,
          (([0, 1, 2] : List Nat).filter (fun z => z ≠ a)).getD b 0,
          (A + 1) / 2, A - (A + 1) / 2, h1, hs2lt, fun he => hs2ne he.symm,
          by omega, ?_⟩)
        simp [pickWinSpots, hA, hc]
    · refine Or.inr (Or.inl ⟨rfl, (r.below 3).1, Rng.below_lt _ 3 (by norm_num), ?_⟩)
      simp [pickWinSpots, hA]

theorem createCardResult_fields (id : Nat) (w : Bool) (A : Nat) (r : Rng) :
    (createCardResult id w A r).1.id = id ∧
    (createCardResult id w A r).1.isWin = w ∧
    (createCardResult id w A r).1.status = none ∧
    (createCardResult id w A r).1.isPlayed = false ∧
    (createCardResult id w A r).1.progress = none ∧
    (createCardResult id w A r).1.lockedBy = none ∧
    (createCardResult id w A r).1.lockedAt = none ∧
    (createCardResult id w A r).1.games.length = 2 := by
  simp [createCardResult]

/-- Field `totalPrizeAmount` is, by construction, the winning-rows sum plus the
bonus slot when it is the winning factor. -/
theorem createCardResult_total_formula (id : Nat) (w : Bool) (A : Nat)
    (r : Rng) :
    (createCardResult id w A r).1.totalPrizeAmount =
      winningRowsSum (createCardResult id w A r).1.games +
        (if (createCardResult id w A r).1.isBonusWin then
          (createCardResult id w A r).1.bonusPrize else 0) := by
  simp [createCardResult, winningRowsSum]

/-- The distributed prize always adds back up to the tier amount. -/
theorem createCardResult_total (id : Nat) (w : Bool) (A : Nat) (r : Rng) :
    (createCardResult id w A r).1.totalPrizeAmount = if w then A else 0 := by
  rcases pickWinSpots_cases w A r with ⟨hw, hws⟩ | ⟨hw, s, hs, hws⟩ |
    ⟨hw, hA, s1, s2, p1, p2, h1, h2, hne, hsum, hws⟩
  · subst hw
    simp [createCardResult, hws, drawRow]
  · subst hw
    interval_cases s <;>
      simp_all [createCardResult, hws, drawRow, List.find?]
  · subst hw
    have hle : (A + 1) / 2 ≤ A := by omega
    interval_cases s1 <;> interval_cases s2 <;> first
      | exact absurd rfl hne
      | simp_all [createCardResult, hws, drawRow, List.find?] <;> omega

theorem createCardResult_rowOk (id : Nat) (w : Bool) (A : Nat) (r : Rng) :
    ∀ g ∈ (createCardResult id w A r).1.games, rowOk g := by
  intro g hg
  have : (createCardResult id w A r).1.games =
      [(drawRow (pickWinSpots w A r).1 A 0 (pickWinSpots w A r).2).1,
       (drawRow (pickWinSpots w A r).1 A 1
         (drawRow (pickWinSpots w A r).1 A 0 (pickWinSpots w A r).2).2).1] := by
    simp [createCardResult]
  rw [this] at hg
  simp only [List.mem_cons, List.not_mem_nil, or_false] at hg
  rcases hg with rfl | rfl
  · exact drawRow_rowOk _ _ _ _
  · exact drawRow_rowOk _ _ _ _

/-- Lemma: `pushCards` maps any card-level function that is constant on
`createCardResult` output onto a `replicate` block. -/
theorem pushCards_map {β : Type} (w : Bool) (A : Nat) (f : GameResult → β)
    (v : β) (hv : ∀ id r, f (createCardResult id w A r).1 = v) :
    ∀ (n : Nat) (s : List GameResult × Rng),
      ((pushCards w A n s).1).map f = s.1.map f ++ List.replicate n v
  | 0, s => by simp [pushCards]
  | n + 1, s => by
    obtain ⟨d, r⟩ := s
    have ih := pushCards_map w A f v hv n
      (d ++ [(createCardResult (d.length + 1) w A r).1],
       (createCardResult (d.length + 1) w A r).2)
    simp only [pushCards]
    rw [ih]
    simp [hv, List.replicate_succ]

theorem pushCards_length (w : Bool) (A : Nat) :
    ∀ (n : Nat) (s : List GameResult × Rng),
      (pushCards w A n s).1.length = s.1.length + n
  | 0, s => by simp [pushCards]
  | n + 1, s => by
    obtain ⟨d, r⟩ := s
    have ih := pushCards_length w A n
      (d ++ [(createCardResult (d.length + 1) w A r).1],
       (createCardResult (d.length + 1) w A r).2)
    simp only [pushCards]
    rw [ih]
    simp
    omega

theorem pushCards_forall (w : Bool) (A : Nat) (P : GameResult → Prop)
    (hP : ∀ id r, P (createCardResult id w A r).1) :
    ∀ (n : Nat) (s : List GameResult × Rng), (∀ c ∈ s.1, P c) →
      ∀ c ∈ (pushCards w A n s).1, P c
  | 0, s, hs => hs
  | n + 1, s, hs => by
    obtain ⟨d, r⟩ := s
    refine pushCards_forall w A P hP n _ ?_
    intro c hc
    rcases List.mem_append.mp hc with hc | hc
    · exact hs c hc
    · rcases List.mem_singleton.mp hc with rfl
      exact hP _ _

theorem genWinners_map_total :
    ∀ (tiers : List PrizeTier) (s : List GameResult × Rng),
      ((genWinners tiers s).1).map (·.totalPrizeAmount) =
        s.1.map (·.totalPrizeAmount) ++ tierPrizes tiers
  | [], s => by simp [genWinners, tierPrizes]
  | t :: rest, s => by
    have ih := genWinners_map_total rest (pushCards true t.amount t.count s)
    have hp := pushCards_map true t.amount (·.totalPrizeAmount) t.amount
      (fun id r => by simp [createCardResult_total]) t.count s
    simp only [genWinners, List.foldl_cons] at ih ⊢
    rw [ih, hp]
    simp [tierPrizes]

theorem genWinners_length :
    ∀ (tiers : List PrizeTier) (s : List GameResult × Rng),
      (genWinners tiers s).1.length =
        s.1.length + (tiers.map (·.count)).sum
  | [], s => by simp [genWinners]
  | t :: rest, s => by
    have ih := genWinners_length rest (pushCards true t.amount t.count s)
    simp only [genWinners, List.foldl_cons] at ih ⊢
    rw [ih, pushCards_length]
    simp
    omega

theorem genWinners_forall (P : GameResult → Prop)
    (hP : ∀ id A r, P (createCardResult id true A r).1) :
    ∀ (tiers : List PrizeTier) (s : List GameResult × Rng),
      (∀ c ∈ s.1, P c) → ∀ c ∈ (genWinners tiers s).1, P c
  | [], _, hs => hs
  | t :: rest, s, hs => by
    simp only [genWinners, List.foldl_cons]
    exact genWinners_forall P hP rest _
      (pushCards_forall true t.amount P (fun id r => hP id t.amount r)
        t.count s hs)

theorem reassignIds_forall (P : GameResult → Prop)
    (hP : ∀ c k, P c → P { c with id := k }) :
    ∀ (k : Nat) (l : List GameResult), (∀ c ∈ l, P c) →
      ∀ c ∈ reassignIds k l, P c
  | _, [], _ => by simp [reassignIds]
  | k, a :: rest, hl => by
    simp only [reassignIds, List.mem_cons]
    rintro c (rfl | hc)
    · exact hP a (k + 1) (hl a (by simp))
    · exact reassignIds_forall P hP (k + 1) rest
        (fun c hc => hl c (by simp [hc])) c hc

theorem reassignIds_map {β : Type} (f : GameResult → β)
    (hf : ∀ c k, f { c with id := k } = f c) :
    ∀ (k : Nat) (l : List GameResult), (reassignIds k l).map f = l.map f
  | _, [] => rfl
  | k, a :: rest => by
    simp [reassignIds, hf, reassignIds_map f hf (k + 1) rest]

/-- Every card of a generated deck satisfies any property that holds of
all `createCardResult` outputs and is insensitive to the id relabelling. -/
theorem generateDeck_forall (P : GameResult → Prop)
    (hPc : ∀ id w A r, P (createCardResult id w A r).1)
    (hPid : ∀ c k, P c → P { c with id := k })
    (config : GameConfig) (r : Rng) :
    ∀ c ∈ (generateDeck config r).1, P c := by
  intro c hc
  simp only [generateDeck] at hc
  set base := genWinners config.tiers ([], r) with hbase
  set base2 := pushCards false 0 (config.totalCards - base.1.length) base
    with hbase2
  have hwin : ∀ c ∈ base.1, P c := by
    rw [hbase]
    exact genWinners_forall P (fun id A r => hPc id true A r) config.tiers
      ([], r) (by simp)
  have hall : ∀ c ∈ base2.1, P c := by
    rw [hbase2]
    exact pushCards_forall false 0 P (fun id r => hPc id false 0 r) _ base hwin
  have hshuf : ∀ c ∈ (shuffle base2.1 base2.2).1, P c := by
    intro c hc
    exact hall c ((shuffle_perm base2.1 base2.2).mem_iff.mp hc)
  exact reassignIds_forall P hPid 0 _ hshuf c
    (by simpa [genWinners] using hc)

theorem generateDeck_length (config : GameConfig) (r : Rng)
    (hsum : (config.tiers.map (·.count)).sum ≤ config.totalCards) :
    (generateDeck config r).1.length = config.totalCards := by
  simp only [generateDeck]
  rw [reassignIds_length]
  have hperm := shuffle_perm
    (pushCards false 0
      (config.totalCards - (genWinners config.tiers ([], r)).1.length)
      (genWinners config.tiers ([], r))).1
    (pushCards false 0
      (config.totalCards - (genWinners config.tiers ([], r)).1.length)
      (genWinners config.tiers ([], r))).2
  rw [show (genWinners config.tiers ([], r)) =
    (List.foldl (fun s tier => pushCards true tier.amount tier.count s)
      ([], r) config.tiers) from rfl] at hperm
  rw [hperm.length_eq]
  rw [show (List.foldl (fun s tier => pushCards true tier.amount tier.count s)
      ([], r) config.tiers) = genWinners config.tiers ([], r) from rfl]
  rw [pushCards_length, genWinners_length]
  simp only [List.length_nil, Nat.zero_add]
  omega

theorem generateDeck_ids (config : GameConfig) (r : Rng) (i : Nat)
    (h : i < (generateDeck config r).1.length) :
    (generateDeck config r).1[i].id = i + 1 := by
  simp only [generateDeck] at h ⊢
  have h' : i < (shuffle
      (pushCards false 0
        (config.totalCards -
          (genWinners config.tiers ([], r)).1.length)
        (genWinners config.tiers ([], r))).1
      (pushCards false 0
        (config.totalCards -
          (genWinners config.tiers ([], r)).1.length)
        (genWinners config.tiers ([], r))).2).1.length := by
    rw [← reassignIds_length 0]
    simpa [genWinners] using h
  have hre := reassignIds_getElem 0 _ i h'
  have hlen2 : i < (reassignIds 0 (shuffle
      (pushCards false 0
        (config.totalCards -
          (genWinners config.tiers ([], r)).1.length)
        (genWinners config.tiers ([], r))).1
      (pushCards false 0
        (config.totalCards -
          (genWinners config.tiers ([], r)).1.length)
        (genWinners config.tiers ([], r))).2).1).length := by
    rw [reassignIds_length]
    exact h'
  rw [getD_eq_getElem' _ i default hlen2] at hre
  simp only [Nat.zero_add] at hre
  simpa [genWinners] using congrArg GameResult.id hre

/-- The prize multiset of a generated deck: the tier prizes plus one zero
per filler losing card, up to permutation. -/
theorem generateDeck_total_perm (config : GameConfig) (r : Rng) :
    ((generateDeck config r).1.map (·.totalPrizeAmount)).Perm
      (tierPrizes config.tiers ++
        List.replicate
          (config.totalCards - (config.tiers.map (·.count)).sum) 0) := by
  simp only [generateDeck]
  rw [reassignIds_map (·.totalPrizeAmount) (fun c k => rfl)]
  have hperm := (shuffle_perm
    (pushCards false 0
      (config.totalCards - (genWinners config.tiers ([], r)).1.length)
      (genWinners config.tiers ([], r))).1
    (pushCards false 0
      (config.totalCards - (genWinners config.tiers ([], r)).1.length)
      (genWinners config.tiers ([], r))).2).map (·.totalPrizeAmount)
  have hmap : ((pushCards false 0
      (config.totalCards - (genWinners config.tiers ([], r)).1.length)
      (genWinners config.tiers ([], r))).1).map (·.totalPrizeAmount) =
      tierPrizes config.tiers ++
        List.replicate
          (config.totalCards - (config.tiers.map (·.count)).sum) 0 := by
    rw [pushCards_map false 0 (·.totalPrizeAmount) 0
      (fun id r => by simp [createCardResult_total])]
    rw [genWinners_map_total, genWinners_length]
    simp
  rw [show (List.foldl (fun s tier => pushCards true tier.amount tier.count s)
      ([], r) config.tiers) = genWinners config.tiers ([], r) from rfl]
  exact hmap ▸ hperm

/-! ### Game-service lemmas -/

theorem heldBy_iff (u : String) (c : GameResult) :
    heldBy u c = true ↔
      (c.status = some CardStatus.scratching ∧ c.lockedBy = some u) := by
  simp [heldBy]

theorem hasId_iff (i : Nat) (c : GameResult) :
    hasId i c = true ↔ c.id = i := by
  simp [hasId]

theorem completedOf_id (c : GameResult) : (completedOf c).id = c.id := rfl

theorem lockedOf_id (c : GameResult) (u : String) (n : Nat) :
    (lockedOf c u n).id = c.id := rfl

/-- Overwriting one card by a card with the same id does not change where
the id lookup lands. -/
theorem findIdx?_hasId_set (deck : List GameResult) (cardId i : Nat)
    (c : GameResult) (hid : ∀ h : i < deck.length, c.id = deck[i].id) :
    (deck.set i c).findIdx? (hasId cardId) =
      deck.findIdx? (hasId cardId) :=
  findIdx?_set_congr (hasId cardId) deck i c
    (fun h => by simp [hasId, hid h])

theorem lockAvail_none (d : List GameResult) (cardId : Nat) (u : String)
    (n : Nat) (h : d.findIdx? (hasId cardId) = none) :
    lockAvail d cardId u n = .error "Card not found" := by
  simp only [lockAvail, h]

theorem lockAvail_not_avail (d : List GameResult) (cardId : Nat) (u : String)
    (n : Nat) (t : Nat) (ht : d.findIdx? (hasId cardId) = some t)
    (htl : t < d.length) (hs : d[t].status ≠ some .available) :
    lockAvail d cardId u n = .error "Card is not available" := by
  simp only [lockAvail, ht]
  rw [getD_eq_getElem' d t default htl]
  simp [hs]

theorem lockAvail_avail (d : List GameResult) (cardId : Nat) (u : String)
    (n : Nat) (t : Nat) (ht : d.findIdx? (hasId cardId) = some t)
    (htl : t < d.length) (hs : d[t].status = some .available) :
    lockAvail d cardId u n = .ok (d.set t (lockedOf d[t] u n)) := by
  simp only [lockAvail, ht]
  rw [getD_eq_getElem' d t default htl]
  simp [hs]

theorem lockCardTx_no_held (deck : List GameResult) (cardId : Nat)
    (u : String) (n : Nat) (h : deck.findIdx? (heldBy u) = none) :
    lockCardTx deck cardId u n = lockAvail deck cardId u n := by
  simp only [lockCardTx, h]

theorem lockCardTx_held_low (deck : List GameResult) (cardId : Nat)
    (u : String) (n : Nat) (h : Nat)
    (hh : deck.findIdx? (heldBy u) = some h) (hl : h < deck.length)
    (hge : jsGE deck[h].progress 90 = false) :
    lockCardTx deck cardId u n = .error "User already has an active card" := by
  simp only [lockCardTx, hh]
  rw [getD_eq_getElem' deck h default hl]
  simp [hge]

theorem lockCardTx_held_high (deck : List GameResult) (cardId : Nat)
    (u : String) (n : Nat) (h : Nat)
    (hh : deck.findIdx? (heldBy u) = some h) (hl : h < deck.length)
    (hge : jsGE deck[h].progress 90 = true) :
    lockCardTx deck cardId u n =
      lockAvail (deck.set h (completedOf deck[h])) cardId u n := by
  simp only [lockCardTx, hh]
  rw [getD_eq_getElem' deck h default hl]
  simp [hge]

theorem lockCard_of_tx_ok (deck : List GameResult) (cardId : Nat)
    (u : String) (n : Nat) (d : List GameResult)
    (h : lockCardTx deck cardId u n = .ok d) :
    lockCard (some ⟨deck⟩) cardId u n = (true, some ⟨d⟩) := by
  simp [lockCard, h]

theorem lockCard_of_tx_err (deck : List GameResult) (cardId : Nat)
    (u : String) (n : Nat) (e : String)
    (h : lockCardTx deck cardId u n = .error e) :
    lockCard (some ⟨deck⟩) cardId u n = (false, some ⟨deck⟩) := by
  simp [lockCard, h]

theorem lockCard_iff_spec (deck : List GameResult) (cardId : Nat)
    (userId : String) (now : Nat) (t : Nat)
    (hone : atMostOneHeld userId deck)
    (ht : deck.findIdx? (hasId cardId) = some t)
    (htlen : t < deck.length) :
    ((lockCard (some ⟨deck⟩) cardId userId now).1 = true ↔
      (deck[t].status = some .available ∧
        ∀ i (hi : i < deck.length), i ≠ t → heldBy userId deck[i] = true →
          jsGE deck[i].progress 90 = true)) ∧
    ((deck[t].status = some .available ∧
        ∀ i (hi : i < deck.length), i ≠ t → heldBy userId deck[i] = true →
          jsGE deck[i].progress 90 = true) →
      lockCard (some ⟨deck⟩) cardId userId now =
        (true, some ⟨lockCardExpected deck t userId now⟩)) := by
  cases hh : deck.findIdx? (heldBy userId) with
  | none =>
    have hnone : ∀ i (hi : i < deck.length), heldBy userId deck[i] = false := by
      intro i hi
      have hmem := List.findIdx?_eq_none_iff.mp hh
      exact hmem _ (deck.getElem_mem hi)
    have htx := lockCardTx_no_held deck cardId userId now hh
    by_cases hs : deck[t].status = some .available
    · have hok := lockAvail_avail deck cardId userId now t ht htlen hs
      have hlc := lockCard_of_tx_ok _ _ _ _ _ (htx.trans hok)
      refine ⟨?_, ?_⟩
      · rw [hlc]
        refine iff_of_true rfl ⟨hs, ?_⟩
        intro i hi _ hheld
        rw [hnone i hi] at hheld
        cases hheld
      · intro _
        rw [hlc]
        simp only [lockCardExpected, hh]
        rw [getD_eq_getElem' deck t default htlen]
    · have herr := lockAvail_not_avail deck cardId userId now t ht htlen hs
      have hlc := lockCard_of_tx_err _ _ _ _ _ (htx.trans herr)
      refine ⟨?_, fun hc => absurd hc.1 hs⟩
      rw [hlc]
      exact iff_of_false (by simp) (fun hc => hs hc.1)
  | some h =>
    obtain ⟨hhlen, hheldh, -⟩ := List.findIdx?_eq_some_iff_getElem.mp hh
    have hscr := (heldBy_iff userId deck[h]).mp hheldh
    cases hge : jsGE (deck[h]).progress 90 with
    | false =>
      have herr := lockCardTx_held_low deck cardId userId now h hh hhlen hge
      have hlc := lockCard_of_tx_err _ _ _ _ _ herr
      have hrhs : ¬(deck[t].status = some .available ∧
          ∀ i (hi : i < deck.length), i ≠ t →
            heldBy userId deck[i] = true → jsGE deck[i].progress 90 = true) := by
        rintro ⟨havail, hP⟩
        by_cases hht : h = t
        · subst hht
          rw [hscr.1] at havail
          cases havail
        · have := hP h hhlen hht hheldh
          rw [hge] at this
          cases this
      exact ⟨by rw [hlc]; exact iff_of_false (by simp) hrhs,
        fun hc => absurd hc hrhs⟩
    | true =>
      have htx := lockCardTx_held_high deck cardId userId now h hh hhlen hge
      have hfind' : (deck.set h (completedOf deck[h])).findIdx?
          (hasId cardId) = some t := by
        rw [findIdx?_hasId_set deck cardId h (completedOf deck[h])
          (fun _ => rfl)]
        exact ht
      have htlen' : t < (deck.set h (completedOf deck[h])).length := by
        simpa using htlen
      by_cases hht : h = t
      · subst hht
        have hs' : (deck.set h (completedOf deck[h]))[h] =
            completedOf deck[h] := List.getElem_set_self htlen'
        have herr := lockAvail_not_avail _ cardId userId now h hfind' htlen'
          (by rw [hs']; simp [completedOf])
        have hlc := lockCard_of_tx_err _ _ _ _ _ (htx.trans herr)
        have hrhs : ¬((deck[h]).status = some .available ∧
            ∀ i (hi : i < deck.length), i ≠ h →
              heldBy userId deck[i] = true →
                jsGE deck[i].progress 90 = true) := by
          rintro ⟨havail, -⟩
          rw [hscr.1] at havail
          cases havail
        exact ⟨by rw [hlc]; exact iff_of_false (by simp) hrhs,
          fun hc => absurd hc hrhs⟩
      · have hdt : (deck.set h (completedOf deck[h]))[t] = deck[t] :=
          List.getElem_set_ne hht htlen'
        by_cases hs : deck[t].status = some .available
        · have hok := lockAvail_avail _ cardId userId now t hfind' htlen'
            (by rw [hdt]; exact hs)
          have hlc := lockCard_of_tx_ok _ _ _ _ _ (htx.trans hok)
          refine ⟨?_, ?_⟩
          · rw [hlc]
            refine iff_of_true rfl ⟨hs, ?_⟩
            intro i hi _ hhe
            have hieq : i = h := hone i h hi hhlen hhe hheldh
            subst hieq
            exact hge
          · intro _
            rw [hlc]
            simp only [lockCardExpected, hh]
            rw [getD_eq_getElem' deck t default htlen,
              getD_eq_getElem' deck h default hhlen, hdt]
        · have herr := lockAvail_not_avail _ cardId userId now t hfind' htlen'
            (by rw [hdt]; exact hs)
          have hlc := lockCard_of_tx_err _ _ _ _ _ (htx.trans herr)
          exact ⟨by rw [hlc]; exact iff_of_false (by simp) (fun hc => hs hc.1),
            fun hc => absurd hc.1 hs⟩

theorem completeCard_ok (deck : List GameResult) (cardId : Nat)
    (userId : String) (t : Nat)
    (ht : deck.findIdx? (hasId cardId) = some t) (htlen : t < deck.length)
    (hlb : deck[t].lockedBy = some userId) :
    completeCard deck cardId userId =
      .ok (deck.set t (completedOf deck[t])) := by
  simp only [completeCard, ht]
  rw [getD_eq_getElem' deck t default htlen]
  simp [hlb]

theorem updateCardProgress_ok (deck : List GameResult) (cardId : Nat)
    (userId : String) (p : Int) (t : Nat)
    (ht : deck.findIdx? (hasId cardId) = some t) (htlen : t < deck.length)
    (hst : deck[t].status = some .scratching)
    (hlb : deck[t].lockedBy = some userId) :
    updateCardProgress deck cardId userId p =
      .ok (deck.set t { deck[t] with progress := some (clampProgress p) }) := by
  simp only [updateCardProgress, ht]
  rw [getD_eq_getElem' deck t default htlen]
  simp [hlb, hst]

/-- The single-candidate sweep step of `forceCompleteStaleCards`. -/
theorem forceCompleteStale_single (deck : List GameResult) (id now t : Nat)
    (ht : deck.findIdx? (hasId id) = some t) (htlen : t < deck.length) :
    (deck[t].status = some .scratching →
      isStaleClient now deck[t].lockedAt = true →
      forceCompleteStaleCards [id] deck now =
        deck.set t (completedOf deck[t])) ∧
    ((deck[t].status ≠ some .scratching ∨
        isStaleClient now deck[t].lockedAt = false) →
      forceCompleteStaleCards [id] deck now = deck) := by
  constructor
  · intro hscr hstale
    simp only [forceCompleteStaleCards, List.foldl_cons, List.foldl_nil, ht]
    rw [getD_eq_getElem' deck t default htlen]
    simp [hscr, hstale]
  · intro hfail
    simp only [forceCompleteStaleCards, List.foldl_cons, List.foldl_nil, ht]
    rw [getD_eq_getElem' deck t default htlen]
    rcases hfail with hfail | hfail <;> simp [hfail]

/-! ### Claim theorems -/

/-- C1 (amended): in a state where the identity holds at most one
`scratching` card, a claim on the (first) card with id `cardId` succeeds
iff that card is `available` and every other card the identity holds in
`scratching` state has `progress >= 90`; on success the target becomes
`scratching` with `lockedBy = identity`, `lockedAt = now`, `progress = 0`,
and a held card with `progress >= 90` is force-completed in the same
transaction (`lockCardExpected`). -/
theorem claim_C1_lock_iff (deck : List GameResult) (cardId : Nat)
    (userId : String) (now : Nat) (t : Nat)
    (hone : atMostOneHeld userId deck)
    (ht : deck.findIdx? (hasId cardId) = some t)
    (htlen : t < deck.length) :
    ((lockCard (some ⟨deck⟩) cardId userId now).1 = true ↔
      (deck[t].status = some .available ∧
        ∀ i (hi : i < deck.length), i ≠ t → heldBy userId deck[i] = true →
          jsGE deck[i].progress 90 = true)) ∧
    ((deck[t].status = some .available ∧
        ∀ i (hi : i < deck.length), i ≠ t → heldBy userId deck[i] = true →
          jsGE deck[i].progress 90 = true) →
      lockCard (some ⟨deck⟩) cardId userId now =
        (true, some ⟨lockCardExpected deck t userId now⟩)) :=
  lockCard_iff_spec deck cardId userId now t hone ht htlen

/-- Witness for C1: in a one-card deck the available card is locked with
the claimed field effects. -/
theorem claim_C1_lock_iff_witness :
    lockCard (some ⟨deckW1⟩) 1 "A" 777 =
      (true, some ⟨lockCardExpected deckW1 0 "A" 777⟩) :=
  (claim_C1_lock_iff deckW1 1 "A" 777 0
    (fun i j hi hj _ _ => by
      simp only [deckW1, List.length_cons, List.length_nil] at hi hj
      omega)
    (by decide) (by decide)).2
    ⟨by decide, fun i hi hne hheld => by
      simp only [deckW1, List.length_cons, List.length_nil] at hi
      interval_cases i
      · exact absurd rfl hne
      ⟩

/-- Counterexample for C1 as frozen: with two cards held by `"A"` (the
first at 95%, the second at 10%), claiming the available card 3 succeeds
even though `"A"` still holds another `scratching` card with
`progress < 90`, contradicting the claimed "if and only if". -/
theorem claim_C1_counterexample :
    (lockCard (some ⟨deckC1⟩) 3 "A" 1000).1 = true ∧
    (deckC1.getD 1 default).status = some .scratching ∧
    (deckC1.getD 1 default).lockedBy = some "A" ∧
    (deckC1.getD 1 default).id ≠ 3 ∧
    jsGE (deckC1.getD 1 default).progress 90 = false := by
  refine ⟨?_, by decide, by decide, by decide, by decide⟩
  decide

/-- C2 (amended): with at most one held card per identity, every listed
failure mode of `lockCard` — missing game document, card id not found,
target not `available`, or the identity's held `scratching` card having
`progress < 90` — returns `false` and leaves the deck untouched, and more
generally any failing call leaves the deck untouched. -/
theorem claim_C2_lock_failure (deck : List GameResult) (cardId : Nat)
    (userId : String) (now : Nat) (hone : atMostOneHeld userId deck) :
    (lockCard none cardId userId now = (false, none)) ∧
    ((lockCard (some ⟨deck⟩) cardId userId now).1 = false →
      (lockCard (some ⟨deck⟩) cardId userId now).2 = some ⟨deck⟩) ∧
    (deck.findIdx? (hasId cardId) = none →
      lockCard (some ⟨deck⟩) cardId userId now = (false, some ⟨deck⟩)) ∧
    (∀ t (htlen : t < deck.length),
      deck.findIdx? (hasId cardId) = some t →
      deck[t].status ≠ some .available →
      lockCard (some ⟨deck⟩) cardId userId now = (false, some ⟨deck⟩)) ∧
    (∀ i (hi : i < deck.length), heldBy userId deck[i] = true →
      jsGE deck[i].progress 90 = false →
      lockCard (some ⟨deck⟩) cardId userId now = (false, some ⟨deck⟩)) := by
  refine ⟨rfl, ?_, ?_, ?_, ?_⟩
  · intro hb
    cases htx : lockCardTx deck cardId userId now with
    | ok d =>
      rw [lockCard_of_tx_ok _ _ _ _ _ htx] at hb
      cases hb
    | error e =>
      rw [lockCard_of_tx_err _ _ _ _ _ htx]
  · intro hnf
    cases hh : deck.findIdx? (heldBy userId) with
    | none =>
      exact lockCard_of_tx_err _ _ _ _ _
        ((lockCardTx_no_held deck cardId userId now hh).trans
          (lockAvail_none deck cardId userId now hnf))
    | some h =>
      obtain ⟨hhlen, hheldh, -⟩ := List.findIdx?_eq_some_iff_getElem.mp hh
      cases hge : jsGE (deck[h]).progress 90 with
      | false =>
        exact lockCard_of_tx_err _ _ _ _ _
          (lockCardTx_held_low _ _ _ _ h hh hhlen hge)
      | true =>
        have hnf' : (deck.set h (completedOf deck[h])).findIdx?
            (hasId cardId) = none := by
          rw [findIdx?_hasId_set deck cardId h _ (fun _ => rfl)]
          exact hnf
        exact lockCard_of_tx_err _ _ _ _ _
          ((lockCardTx_held_high _ _ _ _ h hh hhlen hge).trans
            (lockAvail_none _ _ _ _ hnf'))
  · intro t htlen ht hs
    cases hh : deck.findIdx? (heldBy userId) with
    | none =>
      exact lockCard_of_tx_err _ _ _ _ _
        ((lockCardTx_no_held deck cardId userId now hh).trans
          (lockAvail_not_avail deck cardId userId now t ht htlen hs))
    | some h =>
      obtain ⟨hhlen, hheldh, -⟩ := List.findIdx?_eq_some_iff_getElem.mp hh
      cases hge : jsGE (deck[h]).progress 90 with
      | false =>
        exact lockCard_of_tx_err _ _ _ _ _
          (lockCardTx_held_low _ _ _ _ h hh hhlen hge)
      | true =>
        have hfind' : (deck.set h (completedOf deck[h])).findIdx?
            (hasId cardId) = some t := by
          rw [findIdx?_hasId_set deck cardId h _ (fun _ => rfl)]
          exact ht
        have htlen' : t < (deck.set h (completedOf deck[h])).length := by
          simpa using htlen
        by_cases hht : h = t
        · subst hht
          have hs' : (deck.set h (completedOf deck[h]))[h] =
              completedOf deck[h] := List.getElem_set_self htlen'
          exact lockCard_of_tx_err _ _ _ _ _
            ((lockCardTx_held_high _ _ _ _ h hh hhlen hge).trans
              (lockAvail_not_avail _ _ _ _ h hfind' htlen'
                (by rw [hs']; simp [completedOf])))
        · have hdt : (deck.set h (completedOf deck[h]))[t] = deck[t] :=
            List.getElem_set_ne hht htlen'
          exact lockCard_of_tx_err _ _ _ _ _
            ((lockCardTx_held_high _ _ _ _ h hh hhlen hge).trans
              (lockAvail_not_avail _ _ _ _ t hfind' htlen'
                (by rw [hdt]; exact hs)))
  · intro i hi hheldi hlow
    cases hh : deck.findIdx? (heldBy userId) with
    | none =>
      have := List.findIdx?_eq_none_iff.mp hh _ (deck.getElem_mem hi)
      rw [hheldi] at this
      cases this
    | some h =>
      obtain ⟨hhlen, hheldh, -⟩ := List.findIdx?_eq_some_iff_getElem.mp hh
      have hieq : i = h := hone i h hi hhlen hheldi hheldh
      subst hieq
      exact lockCard_of_tx_err _ _ _ _ _
        (lockCardTx_held_low _ _ _ _ i hh hi hlow)

/-- Witness for C2: looking up a nonexistent card id fails without
touching the one-card deck. -/
theorem claim_C2_lock_failure_witness :
    lockCard (some ⟨deckW1⟩) 99 "A" 1 = (false, some ⟨deckW1⟩) :=
  (claim_C2_lock_failure deckW1 99 "A" 1
    (fun i j hi hj _ _ => by
      simp only [deckW1, List.length_cons, List.length_nil] at hi hj
      omega)).2.2.1 (by decide)

/-- Counterexample for C2 as frozen: `"A"` holds a `scratching` card with
`progress = 50 < 90` (card 2) and still successfully claims card 3, with
the deck modified — the listed failure mode "identity already holding a
scratching card with progress < 90" does not force a rejection when an
earlier held card has `progress >= 90`. -/
theorem claim_C2_counterexample :
    heldBy "A" (deckC2.getD 1 default) = true ∧
    jsGE (deckC2.getD 1 default).progress 90 = false ∧
    (lockCard (some ⟨deckC2⟩) 3 "A" 2000).1 = true ∧
    (lockCard (some ⟨deckC2⟩) 3 "A" 2000).2 ≠ some ⟨deckC2⟩ := by
  refine ⟨by decide, by decide, ?_, ?_⟩ <;> decide

/-- C10: re-claiming the very card the identity already holds fails and
leaves the whole deck unchanged, for every progress value: when
`progress >= 90` the in-transaction auto-completion makes the target
`completed` (not `available`), and otherwise the anti-cheat check throws,
so the transaction aborts either way. -/
theorem claim_C10_reclaim_self (deck : List GameResult) (cardId : Nat)
    (userId : String) (now : Nat) (t : Nat)
    (ht : deck.findIdx? (hasId cardId) = some t) (htlen : t < deck.length)
    (hscr : deck[t].status = some .scratching)
    (hlb : deck[t].lockedBy = some userId) :
    lockCard (some ⟨deck⟩) cardId userId now = (false, some ⟨deck⟩) := by
  have hheldt : heldBy userId deck[t] = true :=
    (heldBy_iff userId deck[t]).mpr ⟨hscr, hlb⟩
  cases hh : deck.findIdx? (heldBy userId) with
  | none =>
    have := List.findIdx?_eq_none_iff.mp hh _ (deck.getElem_mem htlen)
    rw [hheldt] at this
    cases this
  | some h =>
    obtain ⟨hhlen, hheldh, -⟩ := List.findIdx?_eq_some_iff_getElem.mp hh
    cases hge : jsGE (deck[h]).progress 90 with
    | false =>
      exact lockCard_of_tx_err _ _ _ _ _
        (lockCardTx_held_low _ _ _ _ h hh hhlen hge)
    | true =>
      have hfind' : (deck.set h (completedOf deck[h])).findIdx?
          (hasId cardId) = some t := by
        rw [findIdx?_hasId_set deck cardId h _ (fun _ => rfl)]
        exact ht
      have htlen' : t < (deck.set h (completedOf deck[h])).length := by
        simpa using htlen
      by_cases hht : h = t
      · subst hht
        have hs' : (deck.set h (completedOf deck[h]))[h] =
            completedOf deck[h] := List.getElem_set_self htlen'
        exact lockCard_of_tx_err _ _ _ _ _
          ((lockCardTx_held_high _ _ _ _ h hh hhlen hge).trans
            (lockAvail_not_avail _ _ _ _ h hfind' htlen'
              (by rw [hs']; simp [completedOf])))
      · have hdt : (deck.set h (completedOf deck[h]))[t] = deck[t] :=
          List.getElem_set_ne hht htlen'
        exact lockCard_of_tx_err _ _ _ _ _
          ((lockCardTx_held_high _ _ _ _ h hh hhlen hge).trans
            (lockAvail_not_avail _ _ _ _ t hfind' htlen'
              (by rw [hdt, hscr]; simp)))

/-- Witness for C10: `"A"` re-claims its own 40%-scratched card and is
rejected with the deck unchanged. -/
theorem claim_C10_reclaim_self_witness :
    lockCard (some ⟨deckB⟩) 1 "A" 55 = (false, some ⟨deckB⟩) :=
  claim_C10_reclaim_self deckB 1 "A" 55 0 (by decide) (by decide)
    (by decide) (by decide)

/-- C3 (amended): the client sweep, which takes no identity, re-validates
inside the transaction; a candidate card that is still `scratching` and
stale — `lockedAt` missing, equal to `0` (JS-falsy), or older than the
45 s window — is set to `completed` with `isPlayed = true`,
`progress = 100` and the lock cleared; a candidate that is not
`scratching` or not stale is left unchanged. -/
theorem claim_C3_stale_sweep (deck : List GameResult) (id now t : Nat)
    (ht : deck.findIdx? (hasId id) = some t) (htlen : t < deck.length) :
    (deck[t].status = some .scratching →
      isStaleClient now deck[t].lockedAt = true →
      forceCompleteStaleCards [id] deck now =
        deck.set t (completedOf deck[t])) ∧
    ((deck[t].status ≠ some .scratching ∨
        isStaleClient now deck[t].lockedAt = false) →
      forceCompleteStaleCards [id] deck now = deck) :=
  forceCompleteStale_single deck id now t ht htlen

/-- Witness for C3: a card locked by `"B"` at time 100 is swept at time
100000 (stale by more than 45 s) into the completed state. -/
theorem claim_C3_stale_sweep_witness :
    forceCompleteStaleCards [1] deckS 100000 =
      deckS.set 0 (completedOf (deckS.getD 0 default)) :=
  (claim_C3_stale_sweep deckS 1 100000 0 (by decide) (by decide)).1
    (by decide) (by decide)

/-- Counterexample for C3 as frozen: a `scratching` card whose `lockedAt`
is the present value `0` is 10 ms old at `now = 10` — not older than the
staleness window and not missing — yet the sweep completes it, because
JS `!card.lockedAt` treats `0` as missing. -/
theorem claim_C3_counterexample :
    (deckC3.getD 0 default).status = some .scratching ∧
    (deckC3.getD 0 default).lockedAt = some 0 ∧
    (10 : Nat) - 0 ≤ 45000 ∧
    forceCompleteStaleCards [1] deckC3 10 ≠ deckC3 ∧
    ((forceCompleteStaleCards [1] deckC3 10).getD 0 default).status =
      some .completed := by
  refine ⟨by decide, by decide, by decide, ?_, ?_⟩ <;> decide

/-- C4: completing a card held by `identity` succeeds; completing it
again afterwards does not corrupt anything — the second call is cleanly
rejected inside the transaction (the lock was cleared), and the card
stays `completed` with `isPlayed = true` and `progress = 100`. -/
theorem claim_C4_complete_idempotent (deck : List GameResult) (cardId : Nat)
    (userId : String) (t : Nat)
    (ht : deck.findIdx? (hasId cardId) = some t) (htlen : t < deck.length)
    (hlb : deck[t].lockedBy = some userId) :
    completeCard deck cardId userId =
      .ok (deck.set t (completedOf deck[t])) ∧
    completeCard (deck.set t (completedOf deck[t])) cardId userId =
      .error "Not your card" ∧
    ((deck.set t (completedOf deck[t])).getD t default).status =
      some .completed ∧
    ((deck.set t (completedOf deck[t])).getD t default).isPlayed = true ∧
    ((deck.set t (completedOf deck[t])).getD t default).progress =
      some 100 := by
  have htlen' : t < (deck.set t (completedOf deck[t])).length := by
    simpa using htlen
  have hget : (deck.set t (completedOf deck[t])).getD t default =
      completedOf deck[t] := by
    rw [getD_eq_getElem' _ t default htlen']
    exact List.getElem_set_self htlen'
  refine ⟨completeCard_ok deck cardId userId t ht htlen hlb, ?_, ?_, ?_, ?_⟩
  · have hfind' : (deck.set t (completedOf deck[t])).findIdx?
        (hasId cardId) = some t := by
      rw [findIdx?_hasId_set deck cardId t _ (fun _ => rfl)]
      exact ht
    simp only [completeCard, hfind']
    rw [getD_eq_getElem' _ t default htlen', List.getElem_set_self htlen']
    simp [completedOf]
  · rw [hget]; rfl
  · rw [hget]; rfl
  · rw [hget]; rfl

/-- Witness for C4: `"A"` completes its card, then the repeat call is the
claimed clean rejection leaving the completed state. -/
theorem claim_C4_complete_idempotent_witness :
    completeCard deckB 1 "A" =
      .ok (deckB.set 0 (completedOf (deckB.getD 0 default))) ∧
    completeCard (deckB.set 0 (completedOf (deckB.getD 0 default))) 1 "A" =
      .error "Not your card" :=
  ⟨(claim_C4_complete_idempotent deckB 1 "A" 0 (by decide) (by decide)
      (by decide)).1,
   (claim_C4_complete_idempotent deckB 1 "A" 0 (by decide) (by decide)
      (by decide)).2.1⟩

/-- C5: a progress update is rejected with an error unless the card is
`scratching` and locked by the caller; on success exactly the card's
`progress` becomes `clamp(percentage, 0, 100)` (no other field of any
card changes), and a repeated update with any value — equal or lower —
is accepted again. -/
theorem claim_C5_update_progress (deck : List GameResult) (cardId : Nat)
    (userId : String) (p : Int) (t : Nat)
    (ht : deck.findIdx? (hasId cardId) = some t) (htlen : t < deck.length) :
    (deck[t].status = some .scratching ∧ deck[t].lockedBy = some userId →
      updateCardProgress deck cardId userId p =
        .ok (deck.set t
          { deck[t] with progress := some (clampProgress p) })) ∧
    (¬(deck[t].status = some .scratching ∧
        deck[t].lockedBy = some userId) →
      ∃ e, updateCardProgress deck cardId userId p = .error e) ∧
    (∀ p', deck[t].status = some .scratching →
      deck[t].lockedBy = some userId →
      updateCardProgress
        (deck.set t { deck[t] with progress := some (clampProgress p) })
        cardId userId p' =
        .ok ((deck.set t
            { deck[t] with progress := some (clampProgress p) }).set t
          { deck[t] with progress := some (clampProgress p') })) := by
  refine ⟨fun hc => updateCardProgress_ok deck cardId userId p t ht htlen
    hc.1 hc.2, ?_, ?_⟩
  · intro hc
    by_cases hlb : deck[t].lockedBy = some userId
    · refine ⟨"Card is not being scratched", ?_⟩
      have hst : deck[t].status ≠ some CardStatus.scratching :=
        fun hs => hc ⟨hs, hlb⟩
      simp only [updateCardProgress, ht]
      rw [getD_eq_getElem' deck t default htlen]
      simp [hlb, hst]
    · refine ⟨"Not your card", ?_⟩
      simp only [updateCardProgress, ht]
      rw [getD_eq_getElem' deck t default htlen]
      simp [hlb]
  · intro p' hst hlb
    have hfind' : (deck.set t
        { deck[t] with progress := some (clampProgress p) }).findIdx?
        (hasId cardId) = some t := by
      rw [findIdx?_hasId_set deck cardId t _ (fun _ => rfl)]
      exact ht
    have htlen' : t < (deck.set t
        { deck[t] with progress := some (clampProgress p) }).length := by
      simpa using htlen
    have hget : (deck.set t
        { deck[t] with progress := some (clampProgress p) })[t] =
        { deck[t] with progress := some (clampProgress p) } :=
      List.getElem_set_self htlen'
    have hok := updateCardProgress_ok
      (deck.set t { deck[t] with progress := some (clampProgress p) })
      cardId userId p' t hfind' htlen'
      (by rw [hget]; exact hst) (by rw [hget]; exact hlb)
    rw [hok, hget]

/-- Witness for C5: `"A"` updates its 40%-scratched card to a clamped
55%, and the repeat with the lower value 30 is accepted. -/
theorem claim_C5_update_progress_witness :
    updateCardProgress deckB 1 "A" 55 =
      .ok (deckB.set 0
        { deckB.getD 0 default with progress := some (clampProgress 55) }) ∧
    updateCardProgress
      (deckB.set 0
        { deckB.getD 0 default with progress := some (clampProgress 55) })
      1 "A" 30 =
      .ok ((deckB.set 0
          { deckB.getD 0 default with
            progress := some (clampProgress 55) }).set 0
        { deckB.getD 0 default with progress := some (clampProgress 30) }) :=
  ⟨(claim_C5_update_progress deckB 1 "A" 55 0 (by decide) (by decide)).1
      ⟨by decide, by decide⟩,
   (claim_C5_update_progress deckB 1 "A" 55 0 (by decide) (by decide)).2.2
      30 (by decide) (by decide)⟩

/-- Supporting fact for C7: no card coming out of `generateDeck` carries
a `status` field at all (the `createCardResult` literal omits it). -/
theorem generateDeck_status_none (config : GameConfig) (r : Rng) :
    ∀ c ∈ (generateDeck config r).1, c.status = none :=
  generateDeck_forall (fun c => c.status = none)
    (fun id w A r => (createCardResult_fields id w A r).2.2.1)
    (fun _ _ h => h) config r

/-- C6 (amended): when the tier counts fit in `totalCards` and every tier
amount is positive, the generated deck has exactly `totalCards` cards,
position `i` carries id `i + 1` (ids assigned after the shuffle), and the
nonzero prize totals are exactly the tier multiset.  (A zero-amount tier
breaks the multiset equation, because its cards are excluded by the
"nonzero" filter.) -/
theorem claim_C6_generate (config : GameConfig) (r : Rng)
    (hsum : (config.tiers.map (·.count)).sum ≤ config.totalCards)
    (hpos : ∀ tr ∈ config.tiers, 0 < tr.amount) :
    (generateDeck config r).1.length = config.totalCards ∧
    (∀ i (hi : i < (generateDeck config r).1.length),
      (generateDeck config r).1[i].id = i + 1) ∧
    (((generateDeck config r).1.map (·.totalPrizeAmount)).filter
        (fun a => a ≠ 0)).Perm (tierPrizes config.tiers) := by
  refine ⟨generateDeck_length config r hsum, generateDeck_ids config r, ?_⟩
  have hperm := (generateDeck_total_perm config r).filter (fun a => a ≠ 0)
  have h1 : (tierPrizes config.tiers).filter (fun a => a ≠ 0) =
      tierPrizes config.tiers := by
    apply List.filter_eq_self.mpr
    intro a ha
    simp only [tierPrizes, List.mem_flatMap] at ha
    obtain ⟨tr, htr, hmem⟩ := ha
    have hae := List.eq_of_mem_replicate hmem
    subst hae
    have := hpos tr htr
    simp
    omega
  have h2 : (List.replicate
      (config.totalCards - (config.tiers.map (·.count)).sum) 0).filter
      (fun a => (a ≠ 0 : Bool)) = [] := by
    induction (config.totalCards - (config.tiers.map (·.count)).sum) with
    | zero => rfl
    | succ n ih => simpa [List.replicate_succ] using ih
  rw [List.filter_append, h1, h2, List.append_nil] at hperm
  exact hperm

/-- Witness for C6: the four-card one-tier config generates 4 cards whose
nonzero prizes are exactly one 100. -/
theorem claim_C6_generate_witness :
    ((cfg4.tiers.map (·.count)).sum ≤ cfg4.totalCards) ∧
    (generateDeck cfg4 rng0).1.length = cfg4.totalCards ∧
    (((generateDeck cfg4 rng0).1.map (·.totalPrizeAmount)).filter
        (fun a => a ≠ 0)).Perm (tierPrizes cfg4.tiers) :=
  ⟨by decide, (claim_C6_generate cfg4 rng0 (by decide) (by decide)).1,
   (claim_C6_generate cfg4 rng0 (by decide) (by decide)).2.2⟩

/-- Counterexample for C6 as frozen: a tier of amount `0` satisfies the
stated hypothesis (counts fit) but its card's `totalPrizeAmount = 0` is
dropped by the "nonzero" filter while the tier multiset still contains
the `0`, so the claimed multiset equation fails. -/
theorem claim_C6_counterexample :
    (((⟨[⟨1, 0⟩], 1⟩ : GameConfig).tiers.map (·.count)).sum ≤
      (⟨[⟨1, 0⟩], 1⟩ : GameConfig).totalCards) ∧
    ¬(((generateDeck ⟨[⟨1, 0⟩], 1⟩ rng0).1.map
        (·.totalPrizeAmount)).filter (fun a => a ≠ 0)).Perm
      (tierPrizes (⟨[⟨1, 0⟩], 1⟩ : GameConfig).tiers) := by
  constructor <;> decide

/-- C7 is a code bug: the `createCardResult` object literal omits
`status` entirely (despite the declared return type requiring it), so a
freshly generated deck has `status = undefined`, not `'available'`;
`'available'` only appears after the load-time `migrateCard` shim runs. -/
theorem claim_C7_status_missing :
    ((generateDeck ⟨[], 1⟩ rng0).1.map (·.status) = [none]) ∧
    ((generateDeck ⟨[], 1⟩ rng0).1.map (fun c => (migrateCard c).status) =
      [some .available]) := by
  constructor <;> decide

/-- C8: every card of every generated deck has exactly 2 comparison rows,
and each row draws both numbers from 1–9 with `isWin` matching the strict
comparison (`my > house` on winning rows, `my < house` on losing rows,
never equal). -/
theorem claim_C8_rows (config : GameConfig) (r : Rng) :
    ∀ c ∈ (generateDeck config r).1,
      c.games.length = 2 ∧ ∀ g ∈ c.games, rowOk g :=
  generateDeck_forall
    (fun c => c.games.length = 2 ∧ ∀ g ∈ c.games, rowOk g)
    (fun id w A r =>
      ⟨(createCardResult_fields id w A r).2.2.2.2.2.2.2,
       createCardResult_rowOk id w A r⟩)
    (fun _ _ h => h) config r

/-- Witness for C8: the first row of the first card of a concrete
generated deck satisfies the row invariant. -/
theorem claim_C8_rows_witness :
    ((generateDeck cfg4 rng0).1.getD 0 default).games.length = 2 ∧
    rowOk (((generateDeck cfg4 rng0).1.getD 0 default).games.getD 0
      default) :=
  ⟨(claim_C8_rows cfg4 rng0 ((generateDeck cfg4 rng0).1.getD 0 default)
      (by decide)).1,
   (claim_C8_rows cfg4 rng0 ((generateDeck cfg4 rng0).1.getD 0 default)
      (by decide)).2
    (((generateDeck cfg4 rng0).1.getD 0 default).games.getD 0 default)
    (by decide)⟩

/-- C9: for every generated card the recorded total is exactly the sum of
winning-row prizes plus the bonus when it wins (decoys contribute
nothing), and a winning card generated from amount `A > 0` totals exactly
`A` — in particular the ceil/remainder split adds back up to `A`. -/
theorem claim_C9_prize_conservation :
    (∀ (config : GameConfig) (r : Rng), ∀ c ∈ (generateDeck config r).1,
      c.totalPrizeAmount = winningRowsSum c.games +
        (if c.isBonusWin then c.bonusPrize else 0)) ∧
    (∀ (id A : Nat) (r : Rng), 0 < A →
      (createCardResult id true A r).1.totalPrizeAmount = A) := by
  constructor
  · intro config r
    exact generateDeck_forall _
      (fun id w A r => createCardResult_total_formula id w A r)
      (fun _ _ h => h) config r
  · intro id A r _
    rw [createCardResult_total]
    simp

/-- Witness for C9: a winning card of amount 100 totals exactly 100. -/
theorem claim_C9_prize_conservation_witness :
    (0 : Nat) < 100 ∧
    (createCardResult 5 true 100 rng0).1.totalPrizeAmount = 100 :=
  ⟨by decide, claim_C9_prize_conservation.2 5 100 rng0 (by decide)⟩

end Scratch
